import Mathlib

set_option maxRecDepth 8000

/-!
Verification of the certificate chain resolver and the ASN.1 decoder
helpers of the lamassu-dashboard frontend.

The chain resolver lives in
`src/app/certificates/details/CertificateDetailsClient.tsx`
(`buildCertificateChainPem`, `certificateChainForVisualizer`); the
decoder helpers live in
`src/components/shared/asn1/ASN1DecoderComponent.tsx`
(`getBytesFromData`, `generateASN1Structure`, `generateBase64`,
`detectContentType`, `formatHexDump`, `parseASN1Tree`).

TypeScript strings are modelled as Lean `String`s; machine bytes as
`Nat`s that are kept below 256 by the operations that produce them.
A missing/`undefined` string-valued field is modelled as the empty
string, matching the JavaScript truthiness checks (`!x`) used on it.
-/

namespace LamassuDashboard

/-! ## Data model of the chain resolver -/

/-- A CA record as consumed by the chain resolver: the fields of the
`CA` type from `@/lib/ca-data` that the walk reads (`id`, `issuer`,
`pemData`).  An absent issuer reference is the empty string. -/
structure CA where
  id : String
  issuer : String
  pemData : String
deriving Repr, DecidableEq

/-- The fields of `CertificateData` read by the chain walk: the leaf's
issuer-CA reference and its PEM text. -/
structure CertificateData where
  issuerCaId : String
  pemData : String
deriving Repr, DecidableEq

/-- Modelled from the spec: `findCaById` (from `@/lib/ca-data`, a file
not present in this snapshot) looks up the CA with the given id in the
supplied CA list: "look up the CA with that id in `allCas`". -/
def findCaById (id : String) (cas : List CA) : Option CA :=
  cas.find? (fun ca => ca.id == id)

/-- The hard-coded depth bound `maxDepth = 10` of both chain walks
(CertificateDetailsClient.tsx lines 42 and 104). -/
def maxDepth : Nat := 10

/-- The self-signature test of the walks (lines 50 and 110):
`issuerCa.issuer === 'Self-signed' || !issuerCa.issuer ||
issuerCa.id === issuerCa.issuer`. -/
def isSelfSignedRef (ca : CA) : Prop :=
  ca.issuer = "Self-signed" ∨ ca.issuer = "" ∨ ca.id = ca.issuer

instance : DecidablePred isSelfSignedRef := fun ca => by
  unfold isSelfSignedRef; infer_instance

/-- The `while` loop of `certificateChainForVisualizer`
(lines 106-115).  `fuel` stands for `maxDepth - safetyNet`, the number
of iterations the safety counter still allows; `path` is the
accumulator, to whose front each found CA is `unshift`ed. -/
def chainWalk (allCAs : List CA) : Nat → String → List CA → List CA
  | 0, _, path => path
  | fuel + 1, currentIssuerId, path =>
    if currentIssuerId = "" then path
    else
      match findCaById currentIssuerId allCAs with
      | none => path
      | some issuerCa =>
        if isSelfSignedRef issuerCa then issuerCa :: path
        else chainWalk allCAs fuel issuerCa.issuer (issuerCa :: path)

/-- `certificateChainForVisualizer` (lines 98-117): the ancestor chain
shown by the visualizer, root first, leaf's direct issuer last, leaf
excluded.  The `useMemo` guard returns `[]` when the CA list is empty. -/
def certificateChainForVisualizer (cert : CertificateData) (allCAs : List CA) : List CA :=
  if allCAs.length = 0 then []
  else chainWalk allCAs maxDepth cert.issuerCaId []

/-- The `while` loop of `buildCertificateChainPem` (lines 44-55): the
PEM blocks of the ancestors, in `push` order (direct issuer first),
stopping also when a found CA has no PEM data. -/
def pemWalk (allCAs : List CA) : Nat → String → List String
  | 0, _ => []
  | fuel + 1, currentIssuerId =>
    if currentIssuerId = "" then []
    else
      match findCaById currentIssuerId allCAs with
      | none => []
      | some issuerCa =>
        if issuerCa.pemData = "" then []
        else if isSelfSignedRef issuerCa then [issuerCa.pemData]
        else issuerCa.pemData :: pemWalk allCAs fuel issuerCa.issuer

/-- The separator `buildCertificateChainPem` joins the chain with
(line 56).  The source writes `chain.join('\\n\\n')`: in a JavaScript
string literal `'\\n\\n'` denotes the four characters
backslash, `n`, backslash, `n` — literal text, not two newlines.
The Lean literal below denotes the same four characters. -/
def chainPemSeparator : String := "\\n\\n"

/-- `buildCertificateChainPem` (lines 33-57): leaf PEM first, then each
ancestor's PEM in walk order, joined with `chainPemSeparator`;
empty result when there is no target certificate or it has no PEM. -/
def buildCertificateChainPem (targetCert : Option CertificateData) (allCAs : List CA) : String :=
  match targetCert with
  | none => ""
  | some c =>
    if c.pemData = "" then ""
    else String.intercalate chainPemSeparator (c.pemData :: pemWalk allCAs maxDepth c.issuerCaId)

/-- The blank-line separator the spec prescribes for the full-chain PEM
export: two newline characters. -/
def blankLineSeparator : String := "\n\n"

/-! ## String helpers

JavaScript string primitives (`trim`, `includes`, `split`,
`toUpperCase`, the `\s`, `\d` and hex-digit character classes),
re-implemented over `List Char` so that every definition reduces in the
kernel.  The `\s` class is modelled by its ASCII members, which are the
only whitespace characters arising in the inputs considered here. -/

/-- ASCII members of the JavaScript `\s` class (space, tab, newline,
carriage return, vertical tab, form feed). -/
def isWsChar (c : Char) : Bool :=
  c = ' ' || c = '\t' || c = '\n' || c = '\r' || c = '\x0b' || c = '\x0c'

/-- The JavaScript hex-digit class `[0-9A-Fa-f]`. -/
def isHexDigitChar (c : Char) : Bool :=
  ('0' ≤ c && c ≤ '9') || ('a' ≤ c && c ≤ 'f') || ('A' ≤ c && c ≤ 'F')

/-- The JavaScript decimal-digit class `\d`. -/
def isDigitChar (c : Char) : Bool := '0' ≤ c && c ≤ '9'

/-- Numeric value of one hex digit. -/
def hexDigitVal (c : Char) : Nat :=
  if '0' ≤ c && c ≤ '9' then c.toNat - '0'.toNat
  else if 'a' ≤ c && c ≤ 'f' then c.toNat - 'a'.toNat + 10
  else if 'A' ≤ c && c ≤ 'F' then c.toNat - 'A'.toNat + 10
  else 0

/-- Value of a big-endian hex digit string (`parseInt(s, 16)` on an
all-hex string). -/
def hexVal (cs : List Char) : Nat :=
  cs.foldl (fun acc c => acc * 16 + hexDigitVal c) 0

/-- Value of a decimal digit string (`parseInt(s, 10)` on an all-digit
string). -/
def decVal (cs : List Char) : Nat :=
  cs.foldl (fun acc c => acc * 10 + (c.toNat - '0'.toNat)) 0

/-- `String.prototype.trim` over char lists. -/
def trimChars (cs : List Char) : List Char :=
  ((cs.dropWhile isWsChar).reverse.dropWhile isWsChar).reverse

/-- `String.prototype.trim`. -/
def jsTrim (s : String) : String := (trimChars s.toList).asString

/-- Substring containment over char lists. -/
def containsSub (hay need : List Char) : Bool :=
  match hay with
  | [] => need.isEmpty
  | _ :: t => need.isPrefixOf hay || containsSub t need

/-- `String.prototype.includes`. -/
def strIncludes (s sub : String) : Bool := containsSub s.toList sub.toList

/-- `String.prototype.toUpperCase` (ASCII). -/
def jsToUpper (s : String) : String := (s.toList.map Char.toUpper).asString

/-- `split('\n')` over char lists. -/
def splitNl : List Char → List (List Char)
  | [] => [[]]
  | c :: cs =>
    if c = '\n' then [] :: splitNl cs
    else
      match splitNl cs with
      | [] => [[c]]
      | l :: ls => (c :: l) :: ls

/-- `s.split('\n')`. -/
def jsSplitLines (s : String) : List String := (splitNl s.toList).map List.asString

/-- `trim().split(/\s+/)` restricted to its effective behaviour: the
maximal runs of non-whitespace characters, in order. -/
def wsTokens : List Char → List (List Char)
  | [] => []
  | c :: cs =>
    if isWsChar c then wsTokens cs
    else
      match cs with
      | [] => [[c]]
      | d :: _ =>
        if isWsChar d then [c] :: wsTokens cs
        else
          match wsTokens cs with
          | [] => [[c]]
          | l :: ls => (c :: l) :: ls

/-! ## Byte normalization (`getBytesFromData`, ASN1DecoderComponent.tsx
lines 1462-1494) -/

/-- Modelled from the `@lapo/asn1js` `Hex.decode` used by the component
(an external dependency, declared in the repository's module
declarations): whitespace between digits is skipped, a character
outside `[0-9A-Fa-f\s]` is an error, and a dangling half byte is an
error.  The accumulator holds a pending high nibble. -/
def hexDecodeCore : List Char → Option Nat → Except String (List Nat)
  | [], none => .ok []
  | [], some _ => .error "Hex encoding incomplete: 4 bits missing"
  | c :: cs, acc =>
    if isWsChar c then hexDecodeCore cs acc
    else if isHexDigitChar c then
      match acc with
      | none => hexDecodeCore cs (some (hexDigitVal c))
      | some hi =>
        match hexDecodeCore cs none with
        | .ok rest => .ok ((hi * 16 + hexDigitVal c) :: rest)
        | .error e => .error e
    else .error "Illegal character in hex input"

/-- `Hex.decode` on a string. -/
def hexDecodeJS (s : String) : Except String (List Nat) :=
  hexDecodeCore s.toList none

/-- Value of one Base64 alphabet character, if any. -/
def b64Val (c : Char) : Option Nat :=
  if 'A' ≤ c && c ≤ 'Z' then some (c.toNat - 'A'.toNat)
  else if 'a' ≤ c && c ≤ 'z' then some (c.toNat - 'a'.toNat + 26)
  else if '0' ≤ c && c ≤ '9' then some (c.toNat - '0'.toNat + 52)
  else if c = '+' then some 62
  else if c = '/' then some 63
  else none

/-- Sextet values of the Base64 payload: whitespace is skipped, `=`
ends the payload, any other non-alphabet character is an error. -/
def b64Collect : List Char → Except String (List Nat)
  | [] => .ok []
  | c :: cs =>
    if isWsChar c then b64Collect cs
    else if c = '=' then .ok []
    else
      match b64Val c with
      | none => .error "Invalid base64 character"
      | some v =>
        match b64Collect cs with
        | .ok rest => .ok (v :: rest)
        | .error e => .error e

/-- Bytes of a sextet sequence; a single dangling sextet is an error. -/
def b64Bytes : List Nat → Except String (List Nat)
  | [] => .ok []
  | [_] => .error "Base64 encoding incomplete"
  | [a, b] => .ok [a * 4 + b / 16]
  | [a, b, c] => .ok [a * 4 + b / 16, b % 16 * 16 + c / 4]
  | a :: b :: c :: d :: rest =>
    match b64Bytes rest with
    | .ok tail => .ok ((a * 4 + b / 16) :: (b % 16 * 16 + c / 4) :: (c % 4 * 64 + d) :: tail)
    | .error e => .error e

/-- Modelled from the `@lapo/asn1js` `Base64.decode` used by the
component (an external dependency): standard Base64, tolerating
whitespace and `=` padding, failing on any other character outside the
alphabet.  The `try`/`catch` around the component's plain-Base64 branch
(lines 1480-1489) is the in-repository evidence that this decoder
throws on such input. -/
def base64DecodeJS (s : String) : Except String (List Nat) :=
  match b64Collect s.toList with
  | .ok sextets => b64Bytes sextets
  | .error e => .error e

/-- One armor marker match of the regexes `-----BEGIN[^-]+-----` /
`-----END[^-]+-----` at the head of `s`: the marker word, then at least
one non-dash character (the greedy `[^-]+` run, which can only be
followed by a literal `-----` at its maximal extent), then `-----`.
Returns the remainder after the whole match. -/
def armorAfter (marker : List Char) (s : List Char) : Option (List Char) :=
  match s.dropPrefix? marker with
  | none => none
  | some rest =>
    let run := rest.takeWhile (fun c => c ≠ '-')
    if run.isEmpty then none
    else (rest.drop run.length).dropPrefix? "-----".toList

/-- `replace(re, '')` for the armor regexes: remove the first match,
scanning left to right. -/
def removeFirstArmor (marker : List Char) : List Char → List Char
  | [] => []
  | c :: cs =>
    match armorAfter marker (c :: cs) with
    | some tail => tail
    | none => c :: removeFirstArmor marker cs

/-- The PEM branch of `getBytesFromData` (lines 1468-1471): strip the
first `-----BEGIN[^-]+-----`, then the first `-----END[^-]+-----`,
then every whitespace character. -/
def pemBody (t : String) : String :=
  ((removeFirstArmor "-----END".toList
      (removeFirstArmor "-----BEGIN".toList t.toList)).filter
    (fun c => !isWsChar c)).asString

/-- The hex-input test of line 1475: `/^[0-9A-Fa-f\s]+$/.test(t)` —
nonempty, and every character a hex digit or whitespace. -/
def isHexShaped (t : String) : Bool :=
  !t.toList.isEmpty && t.toList.all (fun c => isHexDigitChar c || isWsChar c)

/-- The raw fallback (lines 1484-1488): each UTF-16 code unit of the
string stored into a `Uint8Array`, i.e. taken modulo 256.  The inputs
considered here are ASCII, where code points and code units agree. -/
def rawCharCodes (t : String) : List Nat := t.toList.map (fun c => c.toNat % 256)

/-- `getBytesFromData` (lines 1462-1494): trim, then try PEM armor,
hex shape, Base64, in that order; the raw char-code fallback guards
only the Base64 branch.  An error models a thrown exception. -/
def getBytesFromData (data : String) : Except String (List Nat) :=
  let t := jsTrim data
  if strIncludes t "-----BEGIN" && strIncludes t "-----END" then
    base64DecodeJS (pemBody t)
  else if isHexShaped t then
    hexDecodeJS t
  else
    match base64DecodeJS t with
    | .ok bytes => .ok bytes
    | .error _ => .ok (rawCharCodes t)

/-! ## Chain resolver lemmas -/

/-- One unfolding step of the visualizer's `while` loop. -/
theorem chainWalk_step (allCAs : List CA) (fuel : Nat) (cur : String) (path : List CA) :
    chainWalk allCAs (fuel + 1) cur path =
      if cur = "" then path
      else
        match findCaById cur allCAs with
        | none => path
        | some issuerCa =>
          if isSelfSignedRef issuerCa then issuerCa :: path
          else chainWalk allCAs fuel issuerCa.issuer (issuerCa :: path) := rfl

/-- Each loop iteration prepends one CA and consumes one unit of the
safety budget. -/
theorem chainWalk_length_le (allCAs : List CA) :
    ∀ (fuel : Nat) (cur : String) (path : List CA),
      (chainWalk allCAs fuel cur path).length ≤ path.length + fuel := by
  intro fuel
  induction fuel with
  | zero => intro cur path; simp [chainWalk]
  | succ n ih =>
    intro cur path
    rw [chainWalk_step]
    by_cases hc : cur = ""
    · simp [hc]
    · rw [if_neg hc]
      cases hfind : findCaById cur allCAs with
      | none => simp
      | some ca =>
        change (if isSelfSignedRef ca then ca :: path
            else chainWalk allCAs n ca.issuer (ca :: path)).length ≤ path.length + (n + 1)
        by_cases hss : isSelfSignedRef ca
        · simp [hss]
        · rw [if_neg hss]
          have := ih ca.issuer (ca :: path)
          simp only [List.length_cons] at this ⊢
          omega

theorem findCaById_ne_nil {id : String} {cas : List CA} {ca : CA}
    (h : findCaById id cas = some ca) : cas ≠ [] := by
  intro hnil; rw [hnil] at h; simp [findCaById] at h

/-- C1: with the three-CA scenario resolving as named (lookups return
the named records, ids are ordinary identifiers), the visualizer chain
is exactly `[Root, Intermediate]`, root first, leaf excluded. -/
theorem c1_root_intermediate_chain
    (leaf : CertificateData) (root inter : CA) (allCAs : List CA)
    (hfi : findCaById inter.id allCAs = some inter)
    (hfr : findCaById root.id allCAs = some root)
    (hleaf : leaf.issuerCaId = inter.id)
    (hin : inter.id ≠ "")
    (hii : inter.issuer = root.id)
    (hroot : isSelfSignedRef root)
    (hne : inter.id ≠ root.id)
    (hrs : root.id ≠ "Self-signed")
    (hrn : root.id ≠ "") :
    certificateChainForVisualizer leaf allCAs = [root, inter] := by
  have hcas : allCAs.length ≠ 0 := by
    simpa [List.length_eq_zero] using findCaById_ne_nil hfi
  have hnotss : ¬ isSelfSignedRef inter := by
    intro h
    rcases h with h | h | h
    · exact hrs (hii ▸ h)
    · exact hrn (hii ▸ h)
    · exact hne (h.trans hii)
  unfold certificateChainForVisualizer maxDepth
  rw [if_neg hcas, hleaf]
  show chainWalk allCAs (9 + 1) inter.id [] = [root, inter]
  rw [chainWalk_step, if_neg hin, hfi]
  simp only [if_neg hnotss, hii]
  show chainWalk allCAs (8 + 1) root.id [inter] = [root, inter]
  rw [chainWalk_step, if_neg hrn, hfr]
  simp only [if_pos hroot]

/-- C1 witness: the scenario at concrete records. -/
theorem c1_root_intermediate_chain_witness :
    certificateChainForVisualizer ⟨"inter", "LEAF"⟩
      [⟨"root", "root", "RP"⟩, ⟨"inter", "root", "IP"⟩] =
      [⟨"root", "root", "RP"⟩, ⟨"inter", "root", "IP"⟩] :=
  c1_root_intermediate_chain ⟨"inter", "LEAF"⟩ ⟨"root", "root", "RP"⟩
    ⟨"inter", "root", "IP"⟩ _
    (by decide) (by decide) (by decide) (by decide) (by decide)
    (by decide) (by decide) (by decide) (by decide)

/-- C2: the walk is a total function (it terminates on every input,
cyclic CA lists included) and never returns more than `maxDepth = 10`
entries. -/
theorem c2_chain_length_le_maxDepth (cert : CertificateData) (allCAs : List CA) :
    (certificateChainForVisualizer cert allCAs).length ≤ maxDepth := by
  unfold certificateChainForVisualizer
  by_cases h : allCAs.length = 0
  · simp [h, maxDepth]
  · rw [if_neg h]
    simpa using chainWalk_length_le allCAs maxDepth cert.issuerCaId []

/-- C7: evaluation at a failing input.  `buildCertificateChainPem`
joins the leaf block and its issuer's block with `chainPemSeparator`,
the literal four-character text backslash-`n`-backslash-`n` from the
over-escaped `'\\n\\n'` in the source, not with a blank line. -/
theorem c7_join_uses_literal_backslash_text :
    buildCertificateChainPem (some ⟨"ca-1", "LEAFPEM"⟩) [⟨"ca-1", "ca-1", "CAPEM"⟩] =
      "LEAFPEM" ++ chainPemSeparator ++ "CAPEM" ∧
    chainPemSeparator ≠ blankLineSeparator ∧
    buildCertificateChainPem (some ⟨"ca-1", "LEAFPEM"⟩) [⟨"ca-1", "ca-1", "CAPEM"⟩] ≠
      "LEAFPEM" ++ blankLineSeparator ++ "CAPEM" := by
  refine ⟨by decide, by decide, by decide⟩

/-- C8 counterexample: for a self-signed root whose issuer reference is
its own id, the visualizer walk returns the one-element chain
`[thisCa]`, not the empty sequence the claim states. -/
theorem c8_counterexample :
    certificateChainForVisualizer ⟨"root-ca", "ROOTPEM"⟩ [⟨"root-ca", "root-ca", "ROOTPEM"⟩] =
      [⟨"root-ca", "root-ca", "ROOTPEM"⟩] ∧
    certificateChainForVisualizer ⟨"root-ca", "ROOTPEM"⟩ [⟨"root-ca", "root-ca", "ROOTPEM"⟩] ≠
      ([] : List CA) := by
  refine ⟨by decide, by decide⟩

/-- C8 amended: the walk starts at the leaf's issuer reference, which
for a self-referential root resolves to the root itself; the root is
prepended and the self-signed check then stops the walk, so the result
is `[thisCa]`. -/
theorem c8_self_signed_returns_singleton (thisCa : CA) (cert : CertificateData)
    (hid : cert.issuerCaId = thisCa.id)
    (hss : thisCa.issuer = thisCa.id)
    (hne : thisCa.id ≠ "") :
    certificateChainForVisualizer cert [thisCa] = [thisCa] := by
  unfold certificateChainForVisualizer maxDepth
  rw [if_neg (by simp), hid]
  show chainWalk [thisCa] (9 + 1) thisCa.id [] = [thisCa]
  rw [chainWalk_step, if_neg hne]
  have hfind : findCaById thisCa.id [thisCa] = some thisCa := by
    simp [findCaById]
  rw [hfind]
  simp [isSelfSignedRef, hss]

/-- C8 amended witness. -/
theorem c8_self_signed_returns_singleton_witness :
    certificateChainForVisualizer ⟨"r", "RP"⟩ [⟨"r", "r", "RP"⟩] = [⟨"r", "r", "RP"⟩] :=
  c8_self_signed_returns_singleton ⟨"r", "r", "RP"⟩ ⟨"r", "RP"⟩
    (by decide) (by decide) (by decide)

/-! ## C3: byte-normalization order -/

instance {ε α : Type} [DecidableEq ε] [DecidableEq α] : DecidableEq (Except ε α) := fun a b =>
  match a, b with
  | .ok x, .ok y =>
    if h : x = y then isTrue (congrArg Except.ok h)
    else isFalse (fun hh => h (Except.ok.inj hh))
  | .error x, .error y =>
    if h : x = y then isTrue (congrArg Except.error h)
    else isFalse (fun hh => h (Except.error.inj hh))
  | .ok _, .error _ => isFalse (fun hh => Except.noConfusion hh)
  | .error _, .ok _ => isFalse (fun hh => Except.noConfusion hh)

/-- C3 counterexample: PEM armor around a body that is not Base64.
The PEM branch is chosen and its Base64 decoding throws; no byte
sequence is produced, refuting "normalization always produces a byte
sequence". -/
theorem c3_counterexample :
    getBytesFromData "-----BEGIN CERTIFICATE-----\n!!\n-----END CERTIFICATE-----" =
      .error "Invalid base64 character" := by
  decide

/-- C3 amended: the three source encodings are tried in the fixed
order PEM armor, hex, Base64, and the raw char-code fallback guards
only the Base64 branch — in the first two branches a decoding failure
propagates, while in the last branch a byte sequence is always
produced. -/
theorem c3_normalization_order :
    (∀ data : String,
      (strIncludes (jsTrim data) "-----BEGIN" && strIncludes (jsTrim data) "-----END") = true →
      getBytesFromData data = base64DecodeJS (pemBody (jsTrim data))) ∧
    (∀ data : String,
      (strIncludes (jsTrim data) "-----BEGIN" && strIncludes (jsTrim data) "-----END") = false →
      isHexShaped (jsTrim data) = true →
      getBytesFromData data = hexDecodeJS (jsTrim data)) ∧
    (∀ data : String,
      (strIncludes (jsTrim data) "-----BEGIN" && strIncludes (jsTrim data) "-----END") = false →
      isHexShaped (jsTrim data) = false →
      ∃ bytes, getBytesFromData data = .ok bytes) := by
  refine ⟨fun data h1 => ?_, fun data h1 h2 => ?_, fun data h1 h2 => ?_⟩
  · simp only [getBytesFromData, h1, if_true]
  · simp only [getBytesFromData, h1, h2, Bool.false_eq_true, if_false, if_true]
  · simp only [getBytesFromData, h1, h2, Bool.false_eq_true, if_false]
    cases base64DecodeJS (jsTrim data) with
    | ok bytes => exact ⟨bytes, rfl⟩
    | error e => exact ⟨rawCharCodes (jsTrim data), rfl⟩

/-- C3 amended witness: one concrete input per branch. -/
theorem c3_normalization_order_witness :
    getBytesFromData "-----BEGIN CERTIFICATE-----\nAQI=\n-----END CERTIFICATE-----" =
      base64DecodeJS (pemBody (jsTrim "-----BEGIN CERTIFICATE-----\nAQI=\n-----END CERTIFICATE-----")) ∧
    getBytesFromData "30 05 02 01 05" = hexDecodeJS (jsTrim "30 05 02 01 05") ∧
    ∃ bytes, getBytesFromData "hello!" = .ok bytes :=
  ⟨c3_normalization_order.1 _ (by decide),
   c3_normalization_order.2.1 _ (by decide) (by decide),
   c3_normalization_order.2.2 _ (by decide) (by decide)⟩

/-! ## TLV parsing (`ASN1.decode` of `@lapo/asn1js`) and the decode
pipeline of `useASN1Decoder` (lines 1453-1637) -/

/-- A decode failure of the TLV parser: message and byte offset. -/
structure DecodeErr where
  msg : String
  offset : Nat
deriving Repr, DecidableEq

/-- One parsed TLV element: tag class (bits 7-6), constructed flag
(bit 5), tag number, start offset, header size (tag + length field),
declared content length, and sub-elements when constructed. -/
structure Asn1Node where
  tagClass : Nat
  constructed : Bool
  tagNumber : Nat
  start : Nat
  header : Nat
  contentLen : Nat
  sub : List Asn1Node
deriving Repr

/-- Byte at `pos`, or an out-of-bounds error. -/
def getByteAt (bytes : List Nat) (pos : Nat) : Except DecodeErr Nat :=
  match bytes.get? pos with
  | some b => .ok b
  | none => .error ⟨"Requesting byte offset beyond buffer", pos⟩

/-- High-tag-number form: base-128 continuation bytes. -/
def readTagNum (bytes : List Nat) : Nat → Nat → Nat → Except DecodeErr (Nat × Nat)
  | 0, pos, _ => .error ⟨"Tag number too long", pos⟩
  | fuel + 1, pos, acc => do
    let b ← getByteAt bytes pos
    if b ≥ 128 then readTagNum bytes fuel (pos + 1) (acc * 128 + (b - 128))
    else .ok (acc * 128 + b, pos + 1)

/-- Big-endian value of `k` length bytes. -/
def readLenBytes (bytes : List Nat) : Nat → Nat → Nat → Except DecodeErr (Nat × Nat)
  | 0, pos, acc => .ok (acc, pos)
  | k + 1, pos, acc => do
    let b ← getByteAt bytes pos
    readLenBytes bytes k (pos + 1) (acc * 256 + b)

/-- Length field: short form below 0x80, long form with a
length-of-length byte; indefinite length (0x80) and more than six
length bytes are rejected, as in the library. -/
def readLen (bytes : List Nat) (pos : Nat) : Except DecodeErr (Nat × Nat) := do
  let b ← getByteAt bytes pos
  if b < 128 then .ok (b, pos + 1)
  else if b = 128 then .error ⟨"Indefinite length not supported", pos⟩
  else if b - 128 > 6 then .error ⟨"Length over 48 bits", pos⟩
  else readLenBytes bytes (b - 128) (pos + 1) 0

mutual

/-- Modelled from the `@lapo/asn1js` `ASN1.decode` used by
`generateASN1Structure` (an external dependency, declared in the
repository's module declarations), restricted to definite-length DER:
read one tag byte (with multi-byte high-tag-number form), one length
field, check the declared content fits in the buffer, then recurse over
the content when the element is constructed.  `fuel` bounds the
number of recursive calls; `asn1DecodeJS` supplies more fuel than any
input can consume. -/
def decodeOne (bytes : List Nat) : Nat → Nat → Except DecodeErr Asn1Node
  | 0, pos => .error ⟨"Recursion limit", pos⟩
  | fuel + 1, pos => do
    let b ← getByteAt bytes pos
    let (tagNum, p1) ←
      if b % 32 = 31 then readTagNum bytes (bytes.length + 1) (pos + 1) 0
      else pure (b % 32, pos + 1)
    let (len, p2) ← readLen bytes p1
    if bytes.length < p2 + len then .error ⟨"Exceeded bytes available", p2⟩
    else if b % 64 ≥ 32 then do
      let sub ← decodeSub bytes fuel p2 (p2 + len)
      .ok ⟨b / 64, true, tagNum, pos, p2 - pos, len, sub⟩
    else .ok ⟨b / 64, false, tagNum, pos, p2 - pos, len, []⟩

/-- Sub-elements of a constructed element, parsed sequentially until
the end of the content region. -/
def decodeSub (bytes : List Nat) : Nat → Nat → Nat → Except DecodeErr (List Asn1Node)
  | 0, pos, _ => .error ⟨"Recursion limit", pos⟩
  | fuel + 1, pos, endPos =>
    if endPos ≤ pos then .ok []
    else do
      let n ← decodeOne bytes fuel pos
      let rest ← decodeSub bytes fuel (n.start + n.header + n.contentLen) endPos
      .ok (n :: rest)

end

/-- `ASN1.decode(new Stream(bytes, 0))`: one TLV element from offset 0.
The fuel exceeds the worst-case number of recursive calls (at most one
`decodeOne` and two `decodeSub` steps per element, each element at
least two bytes long). -/
def asn1DecodeJS (bytes : List Nat) : Except DecodeErr Asn1Node :=
  decodeOne bytes (2 * bytes.length + 4) 0

/-- Decimal digits of a number, as characters. -/
def natDigits : Nat → Nat → List Char
  | 0, _ => []
  | _ + 1, 0 => []
  | fuel + 1, n + 1 =>
    natDigits fuel ((n + 1) / 10) ++ [Char.ofNat ('0'.toNat + (n + 1) % 10)]

/-- `toString` for `Nat`, kernel-reducible. -/
def natStr (n : Nat) : String :=
  if n = 0 then "0" else (natDigits (n + 1) n).asString

/-- Universal-class type names the decoder displays. -/
def universalTypeName (tagNumber : Nat) : String :=
  if tagNumber = 1 then "BOOLEAN"
  else if tagNumber = 2 then "INTEGER"
  else if tagNumber = 3 then "BIT STRING"
  else if tagNumber = 4 then "OCTET STRING"
  else if tagNumber = 5 then "NULL"
  else if tagNumber = 6 then "OBJECT IDENTIFIER"
  else if tagNumber = 10 then "ENUMERATED"
  else if tagNumber = 12 then "UTF8String"
  else if tagNumber = 16 then "SEQUENCE"
  else if tagNumber = 17 then "SET"
  else if tagNumber = 19 then "PrintableString"
  else if tagNumber = 23 then "UTCTime"
  else if tagNumber = 24 then "GeneralizedTime"
  else "UNIVERSAL-" ++ natStr tagNumber

/-- Display name of a node's tag. -/
def nodeTypeName (n : Asn1Node) : String :=
  if n.tagClass = 0 then universalTypeName n.tagNumber
  else "[" ++ natStr n.tagNumber ++ "]"

mutual

/-- Abstract stand-in for `asn1.toPrettyString()` of `@lapo/asn1js`:
one line per node (`name @start+contentLength`), children indented by
two spaces.  No claim depends on the exact text of this rendering;
it only matters that the success branch of `generateASN1Structure`
returns the pretty-printed tree and not an error text. -/
def prettyNode (indent : String) (n : Asn1Node) : String :=
  indent ++ nodeTypeName n ++ " @" ++ natStr n.start ++ "+" ++ natStr n.contentLen ++ "\n" ++
    prettyList (indent ++ "  ") n.sub
termination_by sizeOf n
decreasing_by cases n; simp

/-- Pretty-printed sub-elements, concatenated. -/
def prettyList (indent : String) : List Asn1Node → String
  | [] => ""
  | n :: ns => prettyNode indent n ++ prettyList indent ns
termination_by l => sizeOf l

end

/-- The parse-failure text of `generateASN1Structure` (lines
1533-1540): the error message followed by the format guidance block. -/
def parseErrorText (msg : String) : String :=
  "Parse Error: " ++ msg ++
    "\n\nSupported formats:\n- PEM (-----BEGIN ... -----END ...)\n- Hexadecimal (space-separated or continuous)\n- Base64 encoded data\n\nMake sure your input contains valid ASN.1 data."

/-- `generateASN1Structure` (lines 1519-1542): normalize the input,
parse it, and return the pretty-printed tree; any thrown error is
caught and converted into the `Parse Error:` guidance text — the
function returns a string in every case. -/
def generateASN1Structure (data : String) : String :=
  match getBytesFromData data with
  | .error e => parseErrorText e
  | .ok bytes =>
    match asn1DecodeJS bytes with
    | .ok node => prettyNode "" node
    | .error e => parseErrorText e.msg

/-- Two hex digit characters of a byte. -/
def toHexPair (b : Nat) : String :=
  let d := fun n => Char.ofNat (if n < 10 then '0'.toNat + n else 'a'.toNat + n - 10)
  ⟨[d (b / 16 % 16), d (b % 16)]⟩

/-- Four hex digit characters of an offset. -/
def toHex4 (n : Nat) : String :=
  let d := fun k => Char.ofNat (if k < 10 then '0'.toNat + k else 'a'.toNat + k - 10)
  ⟨[d (n / 4096 % 16), d (n / 256 % 16), d (n / 16 % 16), d (n % 16)]⟩

/-- Rows of at most 16 bytes. -/
def chunk16 (fuel : Nat) (bs : List Nat) : List (List Nat) :=
  match fuel, bs with
  | 0, _ => []
  | _, [] => []
  | fuel + 1, bs => bs.take 16 :: chunk16 fuel (bs.drop 16)

/-- Abstract stand-in for `stream.hexDump(0, end, 'dump')` of
`@lapo/asn1js`: offset-prefixed rows of hex byte pairs.  No claim
depends on the exact text. -/
def streamHexDump (bytes : List Nat) : String :=
  String.intercalate "\n"
    (((chunk16 (bytes.length + 1) bytes).enum.map
      (fun p => toHex4 (p.1 * 16) ++ ": " ++
        String.intercalate " " (p.2.map toHexPair))))

/-- `generateHexDump` (lines 1497-1516): dump of at most 512 bytes,
with a `more bytes` suffix beyond that; normalization errors are
caught and rendered as a `Hex dump error:` text. -/
def generateHexDump (data : String) : String :=
  match getBytesFromData data with
  | .error e => "Hex dump error: " ++ e
  | .ok bytes =>
    if bytes.length > 512 then
      streamHexDump (bytes.take 512) ++ "... (" ++ natStr (bytes.length - 512) ++ " more bytes)\n"
    else streamHexDump bytes

/-- The `maxLength` constant of `useASN1Decoder` (line 1425). -/
def maxLength : Nat := 10240

/-- One Base64 alphabet character. -/
def b64Char (v : Nat) : Char :=
  if v < 26 then Char.ofNat ('A'.toNat + v)
  else if v < 52 then Char.ofNat ('a'.toNat + v - 26)
  else if v < 62 then Char.ofNat ('0'.toNat + v - 52)
  else if v = 62 then '+'
  else '/'

/-- Standard Base64 of a byte sequence, with `=` padding: the value
`btoa` returns on the byte-per-character string built in
`generateBase64` (lines 1550-1554). -/
def base64EncodeJS : List Nat → String
  | [] => ""
  | [a] => ⟨[b64Char (a / 4), b64Char (a % 4 * 16), '=', '=']⟩
  | [a, b] => ⟨[b64Char (a / 4), b64Char (a % 4 * 16 + b / 16), b64Char (b % 16 * 4), '=']⟩
  | a :: b :: c :: rest =>
    (⟨[b64Char (a / 4), b64Char (a % 4 * 16 + b / 16),
       b64Char (b % 16 * 4 + c / 64), b64Char (c % 64)]⟩ : String) ++ base64EncodeJS rest

/-- `generateBase64` (lines 1545-1561): the Base64 re-encoding of the
normalized buffer when it is shorter than `maxLength`, the empty
string otherwise; normalization errors are caught and yield the empty
string. -/
def generateBase64 (data : String) : String :=
  match getBytesFromData data with
  | .error _ => ""
  | .ok bytes =>
    if bytes.length < maxLength then base64EncodeJS bytes
    else ""

/-! ## Content-type guessing (`detectContentType`, lines 1572-1615) -/

/-- One ranked guess: a description and a confidence (`match` in the
source; `match` is a Lean keyword, hence the underscore). -/
structure TypeDefinition where
  description : String
  match_ : ℚ
deriving Repr, DecidableEq

/-- `detectContentType` (lines 1572-1613): keyword heuristics on the
upper-cased input (the `.p7` check alone reads the original casing),
returning one of six fixed guess lists.  The source binds
`const upper = content.toUpperCase()` once; it is inlined here. -/
def detectContentType (content : String) : List TypeDefinition :=
  if strIncludes (jsToUpper content) "BEGIN CERTIFICATE" ||
      strIncludes (jsToUpper content) "CERTIFICATE" then
    [⟨"X.509 Certificate", 0.95⟩, ⟨"PKCS#7/CMS Signature", 0.20⟩, ⟨"PKCS#8 Private Key", 0.10⟩]
  else if strIncludes (jsToUpper content) "BEGIN PRIVATE KEY" ||
      strIncludes (jsToUpper content) "PRIVATE KEY" then
    [⟨"PKCS#8 Private Key", 0.92⟩, ⟨"PKCS#1 RSA Private Key", 0.85⟩, ⟨"X.509 Certificate", 0.15⟩]
  else if strIncludes (jsToUpper content) "BEGIN RSA PRIVATE KEY" then
    [⟨"PKCS#1 RSA Private Key", 0.98⟩, ⟨"PKCS#8 Private Key", 0.75⟩, ⟨"X.509 Certificate", 0.10⟩]
  else if strIncludes (jsToUpper content) "BEGIN CERTIFICATE REQUEST" ||
      strIncludes (jsToUpper content) "CSR" then
    [⟨"PKCS#10 Certificate Request", 0.95⟩, ⟨"X.509 Certificate", 0.30⟩, ⟨"PKCS#8 Private Key", 0.15⟩]
  else if strIncludes (jsToUpper content) "PKCS7" || strIncludes (jsToUpper content) "CMS" ||
      strIncludes content ".p7" then
    [⟨"PKCS#7/CMS Signature", 0.90⟩, ⟨"PKCS#7/CMS Encrypted Data", 0.70⟩, ⟨"X.509 Certificate", 0.25⟩]
  else
    [⟨"ASN.1 DER Structure", 0.80⟩, ⟨"PKCS#12 Container", 0.40⟩, ⟨"Custom ASN.1 Format", 0.30⟩]

/-- Stable insertion used by `sortByMatchDesc`. -/
def insertByMatchDesc (d : TypeDefinition) : List TypeDefinition → List TypeDefinition
  | [] => [d]
  | e :: es => if e.match_ < d.match_ then d :: e :: es else e :: insertByMatchDesc d es

/-- The `sort((a, b) => b.match - a.match)` of line 1615: a stable
descending sort by confidence. -/
def sortByMatchDesc : List TypeDefinition → List TypeDefinition
  | [] => []
  | d :: ds => insertByMatchDesc d (sortByMatchDesc ds)

/-! ## The decode pipeline (`decode`, lines 1453-1637) -/

/-- The fields of `ASN1DecodedData` (lines 1377-1383).  `hexDump` is
`none` when `wantHex` is off; `definitions` is `none` when `wantDef`
is off (the source leaves the optional field unset). -/
structure ASN1DecodedData where
  content : String
  structure_ : String
  hexDump : Option String
  base64 : String
  definitions : Option (List TypeDefinition)
deriving Repr, DecidableEq

/-- `decode` (lines 1453-1637): builds the result record.  Every
parse or normalization failure has already been converted to a string
by the inner helpers, so the function is total: the `try`/`catch` of
the source never sees an exception from them and the hook's error
state stays empty. -/
def decode (der : String) (wantHex wantDef : Bool) : ASN1DecodedData :=
  { content := der
    structure_ := generateASN1Structure der
    hexDump := if wantHex then some (generateHexDump der) else none
    base64 := generateBase64 der
    definitions := if wantDef then some (sortByMatchDesc (detectContentType der)) else none }

/-! ## C4: failure semantics of the decode pipeline -/

/-- The error of a TLV decode result, if any. -/
def decodeErrOf : Except DecodeErr Asn1Node → Option DecodeErr
  | .error e => some e
  | .ok _ => none

/-- C4 counterexample: hex input `30 05 02 01 05` (declared content
length 5, only 3 content bytes).  The TLV parse fails, yet `decode`
does not abort: it returns a normal result whose `structure` field is
the guidance text, with the Base64 re-encoding and the hex dump still
populated. -/
theorem c4_counterexample :
    getBytesFromData "30 05 02 01 05" = .ok [48, 5, 2, 1, 5] ∧
    decodeErrOf (asn1DecodeJS [48, 5, 2, 1, 5]) = some ⟨"Exceeded bytes available", 2⟩ ∧
    (decode "30 05 02 01 05" true true).structure_ = parseErrorText "Exceeded bytes available" ∧
    (decode "30 05 02 01 05" true true).base64 = "MAUCAQU=" ∧
    (decode "30 05 02 01 05" true true).hexDump ≠ none := by
  refine ⟨by decide, by decide, by decide, by decide, by decide⟩

/-- C4 amended: a TLV parse failure never aborts `decode` — the
`structure` field alone is replaced by the `Parse Error:` text built
from the parser's message, while the hex dump and Base64 re-encoding
are produced exactly as for a successful parse. -/
theorem c4_parse_failure_kept_in_structure_text
    (data : String) (bytes : List Nat) (e : DecodeErr) (wantHex wantDef : Bool)
    (hb : getBytesFromData data = .ok bytes)
    (he : decodeErrOf (asn1DecodeJS bytes) = some e) :
    (decode data wantHex wantDef).structure_ = parseErrorText e.msg ∧
    (decode data wantHex wantDef).base64 = generateBase64 data ∧
    (decode data wantHex wantDef).hexDump =
      (if wantHex then some (generateHexDump data) else none) := by
  have he' : asn1DecodeJS bytes = .error e := by
    cases hh : asn1DecodeJS bytes with
    | ok n => rw [hh] at he; simp [decodeErrOf] at he
    | error e' => rw [hh] at he; simp [decodeErrOf] at he; rw [he]
  exact ⟨by simp [decode, generateASN1Structure, hb, he'], rfl, rfl⟩

/-- C4 amended witness: the truncated SEQUENCE input. -/
theorem c4_parse_failure_kept_in_structure_text_witness :
    (decode "30 05 02 01 05" true true).structure_ =
      parseErrorText "Exceeded bytes available" ∧
    (decode "30 05 02 01 05" true true).base64 = generateBase64 "30 05 02 01 05" ∧
    (decode "30 05 02 01 05" true true).hexDump =
      (if true then some (generateHexDump "30 05 02 01 05") else none) :=
  c4_parse_failure_kept_in_structure_text "30 05 02 01 05" [48, 5, 2, 1, 5]
    ⟨"Exceeded bytes available", 2⟩ true true (by decide) (by decide)

/-! ## C9: content-type guesses -/

/-- `containsSub` is occurrence as an infix. -/
theorem containsSub_iff (hay need : List Char) :
    containsSub hay need = true ↔ ∃ pre post, hay = pre ++ need ++ post := by
  induction hay with
  | nil =>
    simp only [containsSub, List.isEmpty_iff]
    constructor
    · rintro rfl; exact ⟨[], [], rfl⟩
    · rintro ⟨pre, post, h⟩
      rcases List.append_eq_nil.mp (List.append_eq_nil.mp h.symm).1 with ⟨-, h2⟩
      exact h2
  | cons c t ih =>
    simp only [containsSub, Bool.or_eq_true, ih]
    constructor
    · rintro (hpre | ⟨pre, post, rfl⟩)
      · rcases List.isPrefixOf_iff_prefix.mp hpre with ⟨post, hpost⟩
        exact ⟨[], post, hpost.symm⟩
      · exact ⟨c :: pre, post, rfl⟩
    · rintro ⟨pre, post, hh⟩
      cases pre with
      | nil =>
        left
        exact List.isPrefixOf_iff_prefix.mpr ⟨post, by simpa using hh.symm⟩
      | cons p ps =>
        right
        obtain ⟨-, h2⟩ : c = p ∧ t = ps ++ (need ++ post) := by simpa using hh
        exact ⟨ps, post, by simpa using h2⟩

/-- Upper-casing a string preserves substring occurrences, upper-cased. -/
theorem containsSub_map_toUpper {hay need : List Char}
    (h : containsSub hay need = true) :
    containsSub (hay.map Char.toUpper) (need.map Char.toUpper) = true := by
  rw [containsSub_iff] at h ⊢
  obtain ⟨pre, post, rfl⟩ := h
  exact ⟨pre.map Char.toUpper, post.map Char.toUpper, by simp⟩

/-- An occurrence of `pre ++ mid ++ post` contains an occurrence of
`mid`. -/
theorem containsSub_middle {hay pre mid post : List Char}
    (h : containsSub hay (pre ++ mid ++ post) = true) :
    containsSub hay mid = true := by
  rw [containsSub_iff] at h ⊢
  obtain ⟨p, q, hh⟩ := h
  exact ⟨p ++ pre, post ++ q, by simp [hh]⟩

/-- C9: the guess list is sorted by descending confidence, every
confidence lies in `[0, 1]`, an input containing the CERTIFICATE armor
header is ranked `X.509 Certificate` first, and the guess never
touches the decoded structure (the `structure` field of the result is
the same whether or not guessing is enabled). -/
theorem c9_content_type_guesses :
    (∀ content : String,
      List.Chain' (fun a b => b.match_ ≤ a.match_)
        (sortByMatchDesc (detectContentType content)) ∧
      ∀ d ∈ sortByMatchDesc (detectContentType content),
        0 ≤ d.match_ ∧ d.match_ ≤ 1) ∧
    (∀ content : String,
      strIncludes content "-----BEGIN CERTIFICATE-----" = true →
      (sortByMatchDesc (detectContentType content)).head?.map TypeDefinition.description =
        some "X.509 Certificate") ∧
    (∀ (der : String) (wantHex wantDef : Bool),
      (decode der wantHex wantDef).structure_ = generateASN1Structure der) := by
  have hbranches : ∀ content : String,
      List.Chain' (fun a b => b.match_ ≤ a.match_)
        (sortByMatchDesc (detectContentType content)) ∧
      ∀ d ∈ sortByMatchDesc (detectContentType content),
        0 ≤ d.match_ ∧ d.match_ ≤ 1 := by
    intro content
    unfold detectContentType
    split
    · refine ⟨?_, ?_⟩ <;> norm_num [sortByMatchDesc, insertByMatchDesc, List.chain'_cons]
    · split
      · refine ⟨?_, ?_⟩ <;> norm_num [sortByMatchDesc, insertByMatchDesc, List.chain'_cons]
      · split
        · refine ⟨?_, ?_⟩ <;> norm_num [sortByMatchDesc, insertByMatchDesc, List.chain'_cons]
        · split
          · refine ⟨?_, ?_⟩ <;> norm_num [sortByMatchDesc, insertByMatchDesc, List.chain'_cons]
          · split
            · refine ⟨?_, ?_⟩ <;> norm_num [sortByMatchDesc, insertByMatchDesc, List.chain'_cons]
            · refine ⟨?_, ?_⟩ <;> norm_num [sortByMatchDesc, insertByMatchDesc, List.chain'_cons]
  refine ⟨hbranches, ?_, fun der wantHex wantDef => rfl⟩
  intro content h
  have hsplit : ("-----BEGIN CERTIFICATE-----".toList : List Char) =
      "-----BEGIN ".toList ++ "CERTIFICATE".toList ++ "-----".toList := by decide
  have hup : strIncludes (jsToUpper content) "CERTIFICATE" = true := by
    have h1 : containsSub (content.toList.map Char.toUpper)
        ("-----BEGIN CERTIFICATE-----".toList.map Char.toUpper) = true :=
      containsSub_map_toUpper h
    have h2 : ("-----BEGIN CERTIFICATE-----".toList.map Char.toUpper) =
        "-----BEGIN ".toList ++ "CERTIFICATE".toList ++ "-----".toList := by decide
    rw [h2] at h1
    have h3 := containsSub_middle h1
    simpa [strIncludes, jsToUpper, List.asString] using h3
  simp only [detectContentType, hup, Bool.or_true, if_true]
  norm_num [sortByMatchDesc, insertByMatchDesc]

/-- C9 witness: a concrete armored input. -/
theorem c9_content_type_guesses_witness :
    (sortByMatchDesc (detectContentType "-----BEGIN CERTIFICATE-----")).head?.map
      TypeDefinition.description = some "X.509 Certificate" :=
  c9_content_type_guesses.2.1 "-----BEGIN CERTIFICATE-----" (by decide)

/-! ## C10: Base64 re-encoding size cutoff -/

/-- C10: when the normalized buffer holds fewer than
`maxLength = 10240` bytes, the round-trip export is its full standard
Base64 encoding; from 10240 bytes on it is the empty string. -/
theorem c10_base64_cutoff
    (data : String) (bytes : List Nat)
    (hb : getBytesFromData data = .ok bytes) :
    (bytes.length < maxLength → generateBase64 data = base64EncodeJS bytes) ∧
    (maxLength ≤ bytes.length → generateBase64 data = "") := by
  constructor <;> intro h
  · simp [generateBase64, hb, h]
  · simp [generateBase64, hb, Nat.not_lt.mpr h]

/-- C10 witness: a two-byte buffer, encoded in full. -/
theorem c10_base64_cutoff_witness :
    generateBase64 "01 02" = base64EncodeJS [1, 2] ∧ base64EncodeJS [1, 2] = "AQI=" :=
  ⟨(c10_base64_cutoff "01 02" [1, 2] (by decide)).1 (by decide), by decide⟩

/-! ## C5: hex-dump highlight correlation (`formatHexDump`,
lines 893-1036) -/

/-- One rendered hex-byte token: its text, the byte position the code
computes for it, and whether it carries the hover highlight. -/
structure HexToken where
  text : String
  pos : Nat
  hovered : Bool
deriving Repr, DecidableEq

/-- Hex digit or whitespace (`[0-9a-fA-F\s]`). -/
def isHexWsChar (c : Char) : Bool := isHexDigitChar c || isWsChar c

/-- Capture-group-2 search of the row regex: the longest
hex/whitespace prefix of `s1` of length at most `g` that is followed
by a whitespace character (the mandatory `\s+` before the ASCII
column). -/
def findG2 (s1 : List Char) : Nat → Option (List Char)
  | 0 => none
  | g + 1 =>
    if (s1.take (g + 1)).all isHexWsChar &&
        (match s1.drop (g + 1) with | c :: _ => isWsChar c | [] => false) then
      some (s1.take (g + 1))
    else findG2 s1 g

/-- Backtracking over the length of the `\s+` after the colon: longest
whitespace run first, longest group 2 within it. -/
def findW1G2 (s : List Char) : Nat → Option (List Char)
  | 0 => none
  | w + 1 =>
    if (s.take (w + 1)).all isWsChar then
      match findG2 (s.drop (w + 1))
          (((s.drop (w + 1)).takeWhile isHexWsChar).length) with
      | some g2 => some g2
      | none => findW1G2 s w
    else findW1G2 s w

/-- The hex-dump row regex of line 903,
`^([0-9a-fA-F]{4,8}):\s+([0-9a-fA-F\s]+)\s+(.*)$`, with the engine's
greedy backtracking order: returns the second capture group (the
hex-byte part) when the line matches. -/
def matchOffsetLine (line : String) : Option (List Char) :=
  let cs := line.toList
  let offs := cs.takeWhile isHexDigitChar
  if 4 ≤ offs.length && offs.length ≤ 8 then
    match cs.drop offs.length with
    | ':' :: s => findW1G2 s ((s.takeWhile isWsChar).length)
    | _ => none
  else none

/-- The three row shapes of `formatHexDump`, plus blank rows. -/
inductive HexLineKind where
  | empty : HexLineKind
  | offsetRow : List String → HexLineKind
  | simpleRow : List String → HexLineKind
  | fallback : HexLineKind
deriving Repr, DecidableEq

/-- Row classification (lines 900-908 and 970-1031): blank lines, then
the offset-prefixed format (tokens of length exactly 2 of the captured
hex part), then the simple format (whitespace-separated two-hex-digit
tokens of the trimmed line), then the non-hex fallback. -/
def classifyLine (line : String) : HexLineKind :=
  if (trimChars line.toList).isEmpty then .empty
  else
    match matchOffsetLine line with
    | some hexPart =>
      .offsetRow (((wsTokens hexPart).filter (fun t => t.length = 2)).map List.asString)
    | none =>
      let hexBytes := ((wsTokens (trimChars line.toList)).filter
        (fun t => t.length = 2 && t.all isHexDigitChar)).map List.asString
      if hexBytes.isEmpty then .fallback else .simpleRow hexBytes

/-- The token rendering shared by both row branches (lines 920-958 and
979-1017): position `lineStartByteIndex + byteIndex`, highlighted iff
an active range `{start, end}` satisfies `start ≤ pos < end`. -/
def mkTokens (hexBytes : List String) (startIdx : Nat) (range : Option (Nat × Nat)) :
    List HexToken :=
  hexBytes.enum.map (fun p =>
    { text := p.2
      pos := startIdx + p.1
      hovered :=
        match range with
        | some r => decide (r.1 ≤ startIdx + p.1 ∧ startIdx + p.1 < r.2)
        | none => false })

/-- The row loop of `formatHexDump` with the running
`absoluteByteIndex`.  The index is advanced only in the simple-row
branch: in the offset-row branch the source's
`absoluteByteIndex += hexBytes.length` (line 969) sits after the
`return` statement of that branch and never executes. -/
def formatHexDumpRows (range : Option (Nat × Nat)) :
    List HexLineKind → Nat → List (List HexToken)
  | [], _ => []
  | .empty :: rest, acc => [] :: formatHexDumpRows range rest acc
  | .fallback :: rest, acc => [] :: formatHexDumpRows range rest acc
  | .offsetRow hb :: rest, acc => mkTokens hb acc range :: formatHexDumpRows range rest acc
  | .simpleRow hb :: rest, acc =>
    mkTokens hb acc range :: formatHexDumpRows range rest (acc + hb.length)

/-- `formatHexDump` (lines 893-1036), reduced to the highlight data:
for each rendered row, its hex-byte tokens with the position the code
computes and the hover flag. -/
def formatHexDump (hexDump : String) (range : Option (Nat × Nat)) : List (List HexToken) :=
  formatHexDumpRows range ((jsSplitLines hexDump).map classifyLine) 0

/-- The row loop as the claim describes it: the absolute byte index
accumulated across rows of both formats. -/
def accumHexDumpRows (range : Option (Nat × Nat)) :
    List HexLineKind → Nat → List (List HexToken)
  | [], _ => []
  | .empty :: rest, acc => [] :: accumHexDumpRows range rest acc
  | .fallback :: rest, acc => [] :: accumHexDumpRows range rest acc
  | .offsetRow hb :: rest, acc =>
    mkTokens hb acc range :: accumHexDumpRows range rest (acc + hb.length)
  | .simpleRow hb :: rest, acc =>
    mkTokens hb acc range :: accumHexDumpRows range rest (acc + hb.length)

/-- The hex dump tokenization with true accumulated absolute indices. -/
def accumHexDump (hexDump : String) (range : Option (Nat × Nat)) : List (List HexToken) :=
  accumHexDumpRows range ((jsSplitLines hexDump).map classifyLine) 0

/-- C5: evaluation at a failing input.  A two-row offset-format dump
(bytes `aa bb` then `cc dd`) with active highlight range `[2, 4)`:
the second row's tokens have accumulated absolute indices 2 and 3 and
must be highlighted, but the code restarts that row at index 0 (the
accumulator update after the branch's `return` is dead code) and
highlights nothing. -/
theorem c5_offset_rows_restart_at_zero :
    formatHexDump "0000: aa bb .\n0002: cc dd ." (some (2, 4)) =
      [[⟨"aa", 0, false⟩, ⟨"bb", 1, false⟩], [⟨"cc", 0, false⟩, ⟨"dd", 1, false⟩]] ∧
    accumHexDump "0000: aa bb .\n0002: cc dd ." (some (2, 4)) =
      [[⟨"aa", 0, false⟩, ⟨"bb", 1, false⟩], [⟨"cc", 2, true⟩, ⟨"dd", 3, true⟩]] := by
  refine ⟨by decide, by decide⟩

/-! ## C6: byte ranges of the decoded tree (`parseASN1Tree`,
lines 378-453) -/

/-- Number of base-256 digits of `n` (0 for 0), by explicit fuel. -/
def byteLenAux : Nat → Nat → Nat
  | _, 0 => 0
  | 0, _ + 1 => 0
  | fuel + 1, n + 1 => 1 + byteLenAux fuel ((n + 1) / 256)

/-- Number of base-256 digits of `n`. -/
def byteLen (n : Nat) : Nat := byteLenAux n n

/-- The length-field size `parseASN1Tree` adds for a content length
(line 407): `contentLength > 127 ? Math.ceil(Math.log2(contentLength) / 8) + 1 : 1`.
For `L ≥ 128`, `ceil(log2 L / 8) = ceil(log256 L) = byteLen (L - 1)`;
the float computation is exact at every boundary (the powers of two,
where `Math.log2` is exact). -/
def jsLenFieldBytes (L : Nat) : Nat :=
  if L > 127 then byteLen (L - 1) + 1 else 1

/-- The exact DER length-field size for content length `L`: short form
one byte, long form one length-of-length byte plus the base-256 digits
of `L`. -/
def derLenFieldBytes (L : Nat) : Nat :=
  if L ≤ 127 then 1 else 1 + byteLen L

/-- First match of `\[\+([0-9A-Fa-f]+)\]` (line 393), scanning left to
right; the greedy digit run can only be followed by the literal `]` at
its maximal extent. -/
def findHexMarker : List Char → Option Nat
  | [] => none
  | c :: rest =>
    if c = '[' then
      match rest with
      | '+' :: r2 =>
        if (r2.takeWhile isHexDigitChar).length > 0 &&
            (match r2.drop (r2.takeWhile isHexDigitChar).length with
              | ']' :: _ => true
              | _ => false) then
          some (hexVal (r2.takeWhile isHexDigitChar))
        else findHexMarker rest
      | _ => findHexMarker rest
    else findHexMarker rest

/-- First match of `l=(\d+)` (line 402), scanning left to right. -/
def findLenMarker : List Char → Option Nat
  | [] => none
  | c :: rest =>
    if c = 'l' then
      match rest with
      | '=' :: r2 =>
        if (r2.takeWhile isDigitChar).length > 0 then
          some (decVal (r2.takeWhile isDigitChar))
        else findLenMarker rest
      | _ => findLenMarker rest
    else findLenMarker rest

/-- The per-node fields of `parseASN1Tree` relevant to byte ranges. -/
structure ASN1TreeNode where
  line : String
  indentRaw : Nat
  byteStart : Option Nat
  byteEnd : Option Nat
deriving Repr, DecidableEq

/-- The per-line computation of `parseASN1Tree` (lines 383-423):
the trimmed line, the leading-whitespace count (the source divides it
by 2 for the indent level, which the byte-range computation never
reads), and the byte range: `byteStart` from the `[+hex]` marker,
`byteEnd = byteStart + 1 + lengthField + contentLength` when an
`l=N` marker is present, `byteStart + 2` otherwise. -/
def nodeOfLine (line : String) : ASN1TreeNode :=
  { line := (trimChars line.toList).asString
    indentRaw := (line.toList.takeWhile isWsChar).length
    byteStart := findHexMarker (trimChars line.toList)
    byteEnd :=
      match findHexMarker (trimChars line.toList) with
      | none => none
      | some s =>
        match findLenMarker (trimChars line.toList) with
        | some L => some (s + 1 + jsLenFieldBytes L + L)
        | none => some (s + 2) }

/-- The nodes of the tree `parseASN1Tree` builds, one per nonempty
line of the structure text, in order.  The stack-based parent/child
organization of the source mutates no per-node byte field, so this
flat list carries exactly the byte ranges of the tree's nodes. -/
def parseASN1TreeNodes (structureText : String) : List ASN1TreeNode :=
  ((jsSplitLines structureText).filter
    (fun l => !(trimChars l.toList).isEmpty)).map nodeOfLine

/-- For content lengths up to 255 the approximate length field of
line 407 agrees with the exact DER one. -/
theorem jsLenFieldBytes_eq_der_below_256 :
    ∀ L < 256, 1 ≤ L → jsLenFieldBytes L = derLenFieldBytes L := by decide

/-- C6 counterexample: a node line declaring content length 256.  DER
long form needs a 3-byte length field (`82 01 00`), so the exact
header gives `byteEnd = 0 + 1 + 3 + 256 = 260`; the code counts the
length field as 2 bytes and returns 259. -/
theorem c6_counterexample :
    parseASN1TreeNodes "SEQUENCE [+0000] l=256" =
      [⟨"SEQUENCE [+0000] l=256", 0, some 0, some 259⟩] ∧
    0 + 1 + derLenFieldBytes 256 + 256 = 260 ∧ (259 : Nat) ≠ 260 := by
  refine ⟨by decide, by decide, by decide⟩

/-- C6 amended: for every node of the decoded tree carrying an offset
marker and a content-length marker `l=L` with `1 ≤ L ≤ 255`,
`byteEnd = byteStart + headerBytes + L` holds with the exact DER
header size (one tag byte plus the exact length field); at `L = 256`
(and every power of 256) the code counts one length byte too few. -/
theorem c6_byte_range_header
    (structureText : String) (node : ASN1TreeNode) (s L : Nat)
    (hmem : node ∈ parseASN1TreeNodes structureText)
    (hs : node.byteStart = some s)
    (hL : findLenMarker node.line.toList = some L)
    (h1 : 1 ≤ L) (h255 : L ≤ 255) :
    node.byteEnd = some (s + (1 + derLenFieldBytes L) + L) := by
  obtain ⟨l, -, rfl⟩ := List.mem_map.mp hmem
  have hline : (nodeOfLine l).line.toList = trimChars l.toList := by
    simp [nodeOfLine, List.asString]
  rw [hline] at hL
  have hs' : findHexMarker (trimChars l.toList) = some s := by
    simpa [nodeOfLine] using hs
  have hjs : jsLenFieldBytes L = derLenFieldBytes L :=
    jsLenFieldBytes_eq_der_below_256 L (by omega) h1
  simp only [nodeOfLine, hs', hL, hjs]
  congr 1
  omega

/-- C6 amended witness: a long-form content length of 255. -/
theorem c6_byte_range_header_witness :
    (nodeOfLine "SEQUENCE [+0000] l=255").byteEnd =
      some (0 + (1 + derLenFieldBytes 255) + 255) :=
  c6_byte_range_header "SEQUENCE [+0000] l=255" (nodeOfLine "SEQUENCE [+0000] l=255") 0 255
    (by decide) (by decide) (by decide) (by decide) (by decide)

end LamassuDashboard
